import Mathlib

/-!
Verification of the phrase-segmentation state machine and dialogue
orchestration loop of the wrtvoice repository, as a shallow embedding.

Modelling conventions:
* raw audio bytes are `List Nat`; the queue drained at each tick is a
  `List (List Nat)` of chunks;
* timestamps and durations are exact rationals (`ℚ`) in seconds;
* the external Whisper model is a parameter `asr : List Nat → String`
  (the `.strip()` the source applies to its output is modelled
  explicitly with `pyStrip`);
* the shared `ConversationManager` state, the on-disk session store and
  the websocket event stream are explicit values threaded through the
  tick functions.
-/

set_option maxHeartbeats 1000000

namespace WrtVoice

/-- Python `str.strip()`: remove leading and trailing whitespace.
Defined by structural recursion over the character list so that
concrete applications reduce. -/
def pyStrip (s : String) : String :=
  ⟨((s.data.dropWhile Char.isWhitespace).reverse.dropWhile
      Char.isWhitespace).reverse⟩

/-- Result dictionary returned by `WhisperSTT.process_audio_queue`
(fields `text`, `phrase_complete`, `pausing`, `time_remaining`,
`timestamp` of `src/modules/whisper_stt.py`). -/
structure TickResult where
  text : String
  phrase_complete : Bool
  pausing : Bool
  time_remaining : ℚ
  timestamp : ℚ
deriving Repr, DecidableEq

/-- Mutable segmenter state of `WhisperSTT`: the accumulated phrase
buffer `phrase_bytes` and the nullable last-audio timestamp
`phrase_time` (`src/modules/whisper_stt.py`, `__init__`). -/
structure STTState where
  phrase_bytes : List Nat
  phrase_time : Option ℚ
deriving Repr, DecidableEq

/-- Initial segmenter state set up in `WhisperSTT.__init__`:
`phrase_bytes = bytes()`, `phrase_time = None`. -/
def sttInit : STTState := ⟨[], none⟩

/-- Embedding of `WhisperSTT.process_audio_queue`
(`src/modules/whisper_stt.py` lines 122-217).  The drained queue
contents for this tick are passed in as `queue`; `asr` is the Whisper
`transcribe` call, whose result the source strips. -/
def process_audio_queue (asr : List Nat → String) (phrase_timeout : ℚ)
    (now : ℚ) (queue : List (List Nat)) (s : STTState) :
    Option TickResult × STTState :=
  if queue = [] then
    -- SECOND: no new audio; `if not self.phrase_time or not self.phrase_bytes`
    match s.phrase_time with
    | none => (none, s)
    | some t =>
      if s.phrase_bytes = [] then (none, s)
      else
        let time_since_stopped := now - t
        let time_remaining := phrase_timeout - time_since_stopped
        -- THIRD: countdown finished
        if phrase_timeout ≤ time_since_stopped then
          let final_text := pyStrip (asr s.phrase_bytes)
          (some ⟨final_text, true, false, 0, now⟩, ⟨[], none⟩)
        else
          -- FOURTH: still counting down
          (some ⟨"", false, true, max 0 time_remaining, now⟩, s)
  else
    -- FIRST: new audio available
    let audio_data := queue.flatten
    let phrase_bytes := s.phrase_bytes ++ audio_data
    let text := pyStrip (asr phrase_bytes)
    (some ⟨text, false, false, phrase_timeout, now⟩, ⟨phrase_bytes, some now⟩)

/-- The segmenter invariant stated by the spec: the phrase buffer is
non-empty iff the last-audio timestamp is set. -/
def sttInvariant (s : STTState) : Prop :=
  s.phrase_bytes ≠ [] ↔ s.phrase_time ≠ none

instance (s : STTState) : Decidable (sttInvariant s) := by
  unfold sttInvariant; infer_instance

/-- C1: a tick with no queued audio, a non-empty buffer and a set
timestamp whose elapsed silence reaches `phrase_timeout` returns exactly
one phrase-complete result carrying the (stripped) transcript of the
accumulated buffer, clears both the buffer and the timestamp, and every
subsequent tick with no new audio from the cleared state returns
`none`. -/
theorem phrase_complete_fires_once (asr : List Nat → String)
    (phrase_timeout now t : ℚ) (s : STTState)
    (hb : s.phrase_bytes ≠ []) (ht : s.phrase_time = some t)
    (he : phrase_timeout ≤ now - t) :
    process_audio_queue asr phrase_timeout now [] s
      = (some ⟨pyStrip (asr s.phrase_bytes), true, false, 0, now⟩, ⟨[], none⟩)
    ∧ ∀ now2 : ℚ,
        process_audio_queue asr phrase_timeout now2 [] ⟨[], none⟩
          = (none, ⟨[], none⟩) := by
  constructor
  · simp [process_audio_queue, ht, hb, he]
  · intro now2
    simp [process_audio_queue]

/-- Witness for `phrase_complete_fires_once` at a concrete state. -/
theorem phrase_complete_fires_once_witness :
    ([1, 2] : List Nat) ≠ [] ∧ (5 : ℚ) ≤ 6 - 1 ∧
    process_audio_queue (fun _ => " hi ") 5 6 [] ⟨[1, 2], some 1⟩
      = (some ⟨pyStrip " hi ", true, false, 0, 6⟩, ⟨[], none⟩) := by
  refine ⟨by decide, by norm_num, ?_⟩
  have h := phrase_complete_fires_once (fun _ => " hi ") 5 6 1
    ⟨[1, 2], some 1⟩ (by decide) rfl (by norm_num)
  exact h.1

/-- C2: a tick at which new audio is queued never returns a
phrase-complete result: it takes the new-audio branch, appends the
drained audio to the buffer, sets the last-audio time to `now`, and
returns a live (non-pausing, non-complete) result — regardless of how
close the pause countdown was to expiring. -/
theorem new_audio_never_completes (asr : List Nat → String)
    (phrase_timeout now : ℚ) (queue : List (List Nat)) (s : STTState)
    (hq : queue ≠ []) :
    process_audio_queue asr phrase_timeout now queue s
      = (some ⟨pyStrip (asr (s.phrase_bytes ++ queue.flatten)), false, false,
              phrase_timeout, now⟩,
         ⟨s.phrase_bytes ++ queue.flatten, some now⟩) := by
  simp [process_audio_queue, hq]

/-- Witness for `new_audio_never_completes`: a pausing tick at
`elapsed = phrase_timeout - 0.1` followed by a tick with new audio does
not produce a phrase-complete result. -/
theorem new_audio_never_completes_witness :
    (process_audio_queue (fun _ => "a") 5 (49/10) [] ⟨[1], some 0⟩).1.map
        (fun r => (r.phrase_complete, r.pausing)) = some (false, true) ∧
    ([[2]] : List (List Nat)) ≠ [] ∧
    process_audio_queue (fun _ => "a") 5 5 [[2]] ⟨[1], some 0⟩
      = (some ⟨pyStrip "a", false, false, 5, 5⟩, ⟨([1] : List Nat) ++ [[2]].flatten, some 5⟩) := by
  refine ⟨?_, by decide, ?_⟩
  · have hlt : ¬ ((5 : ℚ) ≤ 49/10) := by norm_num
    simp [process_audio_queue, hlt]
  · exact new_audio_never_completes (fun _ => "a") 5 5 [[2]] ⟨[1], some 0⟩
      (by decide)

/-- C3 counterexample: from the initial state (which satisfies the
invariant), a tick that drains a queue holding a single empty byte
chunk sets `phrase_time` while leaving `phrase_bytes` empty, violating
the invariant `phrase_bytes ≠ [] ↔ phrase_time ≠ none`. -/
theorem invariant_broken_by_empty_chunk :
    sttInvariant sttInit ∧
    ¬ sttInvariant
        (process_audio_queue (fun _ => "") 5 0 [[]] sttInit).2 := by
  constructor
  · decide
  · decide

/-- C3 amended: the invariant holds in the initial state and is
preserved by every tick whose drained queue is either empty or
contributes at least one byte of audio. -/
theorem invariant_preserved (asr : List Nat → String)
    (phrase_timeout now : ℚ) (queue : List (List Nat)) (s : STTState)
    (hq : queue = [] ∨ queue.flatten ≠ [])
    (hs : sttInvariant s) :
    sttInvariant sttInit ∧
    sttInvariant (process_audio_queue asr phrase_timeout now queue s).2 := by
  refine ⟨by decide, ?_⟩
  rcases hq with hq | hq
  · subst hq
    unfold process_audio_queue
    simp only [if_pos rfl]
    cases htm : s.phrase_time with
    | none => simpa [htm] using hs
    | some t =>
      by_cases hb : s.phrase_bytes = []
      · simpa [htm, hb] using hs
      · by_cases he : phrase_timeout ≤ now - t
        · simp [htm, hb, he, sttInvariant]
        · simpa [htm, hb, he] using hs
  · have hqne : queue ≠ [] := by
      intro h; subst h; simp at hq
    simp [process_audio_queue, hqne, sttInvariant, hq]

/-- Witness for `invariant_preserved` at a concrete non-empty drain. -/
theorem invariant_preserved_witness :
    (([[7]] : List (List Nat)) = [] ∨ ([[7]] : List (List Nat)).flatten ≠ []) ∧
    sttInvariant sttInit ∧
    sttInvariant (process_audio_queue (fun _ => "x") 5 0 [[7]] sttInit).2 := by
  refine ⟨Or.inr (by decide), ?_⟩
  exact invariant_preserved (fun _ => "x") 5 0 [[7]] sttInit
    (Or.inr (by decide)) (by decide)

/-- One conversation message as built by
`ConversationManager.add_message` (`src/modules/conversation_manager.py`):
a timestamp, the speaker tag, the text, and the optional fields that are
only present when supplied. -/
structure Turn where
  timestamp : ℚ
  speaker : String
  text : String
  audio_duration : Option ℚ := none
  audio_file : Option String := none
  metadata : Option (List (String × String)) := none
deriving Repr, DecidableEq

/-- Mutable state of `ConversationManager` (`__init__` /
`start_session`). -/
structure ConvMgr where
  session_id : Option String
  pdf_context : String
  pdf_metadata : List (String × String)
  conversation : List Turn
  session_start : Option ℚ
deriving Repr, DecidableEq

/-- The JSON record written by `ConversationManager.save_session`
(`src/modules/conversation_manager.py` lines 132-166). -/
structure SessionData where
  session_id : String
  session_start : Option ℚ
  session_duration_seconds : Option ℚ
  pdf_context : String
  pdf_metadata : List (String × String)
  conversation : List Turn
  message_count : Nat
  student_messages : Nat
  bot_messages : Nat
deriving Repr, DecidableEq

/-- The storage directory: one JSON file per session id. -/
abbrev Store := String → Option SessionData

/-- Embedding of `ConversationManager.save_session`: `none` models the
`ValueError` raised when there is no active session; otherwise the
session record is written to `storage_dir/{session_id}.json`. -/
def save_session (now : ℚ) (mgr : ConvMgr) (store : Store) : Option Store :=
  match mgr.session_id with
  | none => none
  | some sid =>
    let data : SessionData :=
      { session_id := sid
        session_start := mgr.session_start
        session_duration_seconds := mgr.session_start.map (fun st => now - st)
        pdf_context := mgr.pdf_context
        pdf_metadata := mgr.pdf_metadata
        conversation := mgr.conversation
        message_count := mgr.conversation.length
        student_messages :=
          (mgr.conversation.filter (fun m => m.speaker = "student")).length
        bot_messages :=
          (mgr.conversation.filter (fun m => m.speaker = "bot")).length }
    some (fun k => if k = sid then some data else store k)

/-- Embedding of `ConversationManager.load_session`
(`src/modules/conversation_manager.py` lines 168-199): a missing file
returns `False` and leaves the manager unchanged; otherwise the
manager's fields are replaced by the stored record. -/
def load_session (sid : String) (mgr : ConvMgr) (store : Store) :
    Bool × ConvMgr :=
  match store sid with
  | none => (false, mgr)
  | some data =>
    (true,
     { mgr with
        session_id := some data.session_id
        session_start := data.session_start
        pdf_context := data.pdf_context
        pdf_metadata := data.pdf_metadata
        conversation := data.conversation })

/-- Embedding of `ConversationManager.add_message`: appends the message
and auto-saves.  The returned flag is `false` when the auto-save raised
(no active session); the message is appended before the save, as in the
source.  (The source rounds `audio_duration` to two decimals; every call
site covered here passes `None` for it.) -/
def add_message (now : ℚ) (speaker text : String) (audio_duration : Option ℚ)
    (audio_file : Option String) (metadata : Option (List (String × String)))
    (mgr : ConvMgr) (store : Store) : ConvMgr × Store × Bool :=
  let message : Turn := ⟨now, speaker, text, audio_duration, audio_file, metadata⟩
  let mgr' := { mgr with conversation := mgr.conversation ++ [message] }
  match save_session now mgr' store with
  | some store' => (mgr', store', true)
  | none => (mgr', store, false)

/-- A turn with only the mandatory fields, as appended by the
orchestrator's `add_message('student', ...)` / `add_message('bot', ...)`
calls. -/
def mkTurn (ts : ℚ) (speaker text : String) : Turn :=
  ⟨ts, speaker, text, none, none, none⟩

/-- C8: for every manager with an active session id, any turn sequence
and any metadata, saving succeeds and loading that id back (into any
manager) succeeds and restores the same session id, the identical
ordered turn sequence and the identical metadata. -/
theorem save_load_roundtrip (now : ℚ) (mgr : ConvMgr) (store : Store)
    (sid : String) (h : mgr.session_id = some sid) :
    ∃ store', save_session now mgr store = some store' ∧
      ∀ mgr2 : ConvMgr,
        (load_session sid mgr2 store').1 = true ∧
        (load_session sid mgr2 store').2.session_id = some sid ∧
        (load_session sid mgr2 store').2.conversation = mgr.conversation ∧
        (load_session sid mgr2 store').2.pdf_metadata = mgr.pdf_metadata := by
  simp only [save_session, h]
  refine ⟨_, rfl, ?_⟩
  intro mgr2
  simp [load_session]

/-- Witness for `save_load_roundtrip` on a concrete two-turn session. -/
theorem save_load_roundtrip_witness :
    (ConvMgr.session_id
        ⟨some "2024-01-01_00-00-00", "essay", [("title", "T")],
         [mkTurn 1 "student" "hi", mkTurn 2 "bot" "why?"], some 0⟩
      = some "2024-01-01_00-00-00") ∧
    ∃ store',
      save_session 3
          ⟨some "2024-01-01_00-00-00", "essay", [("title", "T")],
           [mkTurn 1 "student" "hi", mkTurn 2 "bot" "why?"], some 0⟩
          (fun _ => none)
        = some store' ∧
      ∀ mgr2 : ConvMgr,
        (load_session "2024-01-01_00-00-00" mgr2 store').1 = true ∧
        (load_session "2024-01-01_00-00-00" mgr2 store').2.session_id
          = some "2024-01-01_00-00-00" ∧
        (load_session "2024-01-01_00-00-00" mgr2 store').2.conversation
          = [mkTurn 1 "student" "hi", mkTurn 2 "bot" "why?"] ∧
        (load_session "2024-01-01_00-00-00" mgr2 store').2.pdf_metadata
          = [("title", "T")] := by
  refine ⟨rfl, ?_⟩
  exact save_load_roundtrip 3
    ⟨some "2024-01-01_00-00-00", "essay", [("title", "T")],
     [mkTurn 1 "student" "hi", mkTurn 2 "bot" "why?"], some 0⟩
    (fun _ => none) "2024-01-01_00-00-00" rfl

/-- Client-facing websocket messages sent by `websocket_conversation`
(`src/app.py`).  A `status` message with `status == "pausing"` also
carries `time_remaining`, so it gets its own constructor. -/
inductive Event where
  | ready
  | status (s : String)
  | statusPausing (time_remaining : ℚ)
  | transcription (text : String) (phrase_complete : Bool)
  | botChunk (chunk : String)
  | botComplete (text : String)
  | errorMsg (msg : String)
deriving Repr, DecidableEq

/-- Per-connection loop variables of `websocket_conversation`:
`current_student_text` and `last_pausing_time` (`src/app.py` lines
210-212). -/
structure WsState where
  current_student_text : String
  last_pausing_time : Option ℚ
deriving Repr, DecidableEq

/-- Outcome of one iteration body of the `websocket_conversation` loop:
the updated loop variables, manager and store, the events sent over the
websocket in order, how many LLM streaming calls were opened, whether
the iteration reached the trailing `asyncio.sleep(0.25)` (`continue`
skips it), and whether an exception escaped the iteration (which ends
the loop). -/
structure HandleOut where
  ws : WsState
  mgr : ConvMgr
  store : Store
  events : List Event
  llm_calls : Nat
  slept : Bool
  errored : Bool

/-- Embedding of the per-tick branch of `websocket_conversation`
(`src/app.py` lines 215-316) on one segmenter result.  `stream` is the
finite sequence of fragments yielded by
`ollama_client.generate_socratic_response_stream` when a phrase
completes this tick.  The source sets `last_pausing_time` to a fresh
`datetime.now()` taken just after the send; this embedding uses the
tick's single `now` for it. -/
def handle_result (now : ℚ) (stream : List String) (result : Option TickResult)
    (ws : WsState) (mgr : ConvMgr) (store : Store) : HandleOut :=
  match result with
  | none => ⟨ws, mgr, store, [], 0, true, false⟩
  | some r =>
    if r.pausing then
      -- only send pausing updates every 0.5s
      let send_pausing :=
        match ws.last_pausing_time with
        | none => true
        | some t => decide ((1 : ℚ)/2 ≤ now - t)
      if send_pausing then
        ⟨⟨ws.current_student_text, some now⟩, mgr, store,
         [Event.statusPausing r.time_remaining], 0, true, false⟩
      else
        ⟨ws, mgr, store, [], 0, true, false⟩
    else if r.phrase_complete then
      if pyStrip r.text = "" then
        -- skip empty phrases: status reset, then `continue` (no sleep)
        ⟨⟨"", none⟩, mgr, store, [Event.status "listening"], 0, false, false⟩
      else
        let ev1 := [Event.transcription r.text true]
        let (mgr1, store1, ok1) :=
          add_message now "student" r.text none none none mgr store
        if ok1 = false then
          ⟨ws, mgr1, store1, ev1, 0, false, true⟩
        else
          let chunks := stream.filter (fun c => c ≠ "")
          let full_response := String.join chunks
          let ev2 := ev1 ++ [Event.status "analyzing", Event.status "responding"]
            ++ chunks.map Event.botChunk ++ [Event.botComplete full_response]
          let (mgr2, store2, ok2) :=
            add_message now "bot" full_response none none none mgr1 store1
          if ok2 = false then
            ⟨ws, mgr2, store2, ev2, 1, false, true⟩
          else
            ⟨⟨"", none⟩, mgr2, store2, ev2 ++ [Event.status "listening"],
             1, true, false⟩
    else
      -- live transcription update
      if r.text ≠ "" ∧ r.text ≠ ws.current_student_text then
        ⟨⟨r.text, none⟩, mgr, store,
         [Event.transcription r.text false, Event.status "listening"],
         0, true, false⟩
      else
        ⟨ws, mgr, store, [], 0, true, false⟩

/-- The text of an incomplete (live) transcription event, if any. -/
def liveText : Event → Option String
  | Event.transcription t false => some t
  | _ => none

/-- The text of a bot response chunk event, if any. -/
def chunkText : Event → Option String
  | Event.botChunk c => some c
  | _ => none

/-- The text of a bot response completion event, if any. -/
def completeText : Event → Option String
  | Event.botComplete c => some c
  | _ => none

/-- C4: a tick whose segmenter result is phrase-complete with empty or
whitespace-only text sends exactly one listening status event and
continues: the conversation is untouched (no student or bot turn), the
store is untouched, and no LLM streaming call is opened. -/
theorem empty_phrase_discarded (now : ℚ) (stream : List String)
    (r : TickResult) (ws : WsState) (mgr : ConvMgr) (store : Store)
    (hp : r.pausing = false) (hc : r.phrase_complete = true)
    (ht : pyStrip r.text = "") :
    handle_result now stream (some r) ws mgr store
      = ⟨⟨"", none⟩, mgr, store, [Event.status "listening"], 0, false, false⟩ := by
  simp [handle_result, hp, hc, ht]

/-- Witness for `empty_phrase_discarded` on a whitespace transcript. -/
theorem empty_phrase_discarded_witness :
    (TickResult.pausing ⟨"", true, false, 0, 1⟩ = false) ∧
    (TickResult.phrase_complete ⟨"", true, false, 0, 1⟩ = true) ∧
    pyStrip (TickResult.text ⟨"", true, false, 0, 1⟩) = "" ∧
    handle_result 1 ["x"] (some ⟨"", true, false, 0, 1⟩) ⟨"hi", some 0⟩
        ⟨some "s", "", [], [], some 0⟩ (fun _ => none)
      = ⟨⟨"", none⟩, ⟨some "s", "", [], [], some 0⟩, fun _ => none,
         [Event.status "listening"], 0, false, false⟩ := by
  refine ⟨rfl, rfl, rfl, ?_⟩
  exact empty_phrase_discarded 1 ["x"] ⟨"", true, false, 0, 1⟩ ⟨"hi", some 0⟩
    ⟨some "s", "", [], [], some 0⟩ (fun _ => none) rfl rfl rfl

/-- C5: on a non-empty completed phrase, the bot-response-complete event
is unique and its text is exactly the concatenation, in arrival order,
of the texts of all emitted bot-response-chunk events; the conversation
gains the student turn followed by a bot turn carrying that same
concatenated text. -/
theorem chunks_concat_complete (now : ℚ) (stream : List String)
    (r : TickResult) (ws : WsState) (mgr : ConvMgr) (store : Store)
    (sid : String) (hp : r.pausing = false) (hc : r.phrase_complete = true)
    (ht : pyStrip r.text ≠ "") (hs : mgr.session_id = some sid) :
    (handle_result now stream (some r) ws mgr store).events.filterMap completeText
      = [String.join
          ((handle_result now stream (some r) ws mgr store).events.filterMap
            chunkText)] ∧
    (handle_result now stream (some r) ws mgr store).mgr.conversation
      = mgr.conversation
        ++ [mkTurn now "student" r.text,
            mkTurn now "bot"
              (String.join
                ((handle_result now stream (some r) ws mgr store).events.filterMap
                  chunkText))] := by
  have h1 : ∀ l : List String, l.filterMap (completeText ∘ Event.botChunk) = [] := by
    intro l
    simp [completeText, Function.comp_def]
  have h2 : ∀ l : List String, l.filterMap (chunkText ∘ Event.botChunk) = l := by
    intro l
    simp [chunkText, Function.comp_def]
  simp only [handle_result, hp, hc, ht, Bool.false_eq_true, if_false, if_true,
    add_message, save_session, hs, mkTurn]
  simp [completeText, chunkText, List.filterMap_append, List.filterMap_map,
    h1, h2]

/-- Witness for `chunks_concat_complete` on a three-fragment stream with
an empty fragment in the middle. -/
theorem chunks_concat_complete_witness :
    (TickResult.pausing ⟨"ok", true, false, 0, 1⟩ = false) ∧
    (TickResult.phrase_complete ⟨"ok", true, false, 0, 1⟩ = true) ∧
    (pyStrip (TickResult.text ⟨"ok", true, false, 0, 1⟩) ≠ "") ∧
    (ConvMgr.session_id ⟨some "s", "", [], [], some 0⟩ = some "s") ∧
    ((handle_result 1 ["a", "", "b"] (some ⟨"ok", true, false, 0, 1⟩)
        ⟨"", none⟩ ⟨some "s", "", [], [], some 0⟩
        (fun _ => none)).events.filterMap completeText
      = [String.join
          ((handle_result 1 ["a", "", "b"] (some ⟨"ok", true, false, 0, 1⟩)
              ⟨"", none⟩ ⟨some "s", "", [], [], some 0⟩
              (fun _ => none)).events.filterMap chunkText)] ∧
     (handle_result 1 ["a", "", "b"] (some ⟨"ok", true, false, 0, 1⟩)
        ⟨"", none⟩ ⟨some "s", "", [], [], some 0⟩
        (fun _ => none)).mgr.conversation
      = [] ++ [mkTurn 1 "student" "ok",
          mkTurn 1 "bot"
            (String.join
              ((handle_result 1 ["a", "", "b"] (some ⟨"ok", true, false, 0, 1⟩)
                  ⟨"", none⟩ ⟨some "s", "", [], [], some 0⟩
                  (fun _ => none)).events.filterMap chunkText))]) := by
  refine ⟨rfl, rfl, by decide, rfl, ?_⟩
  exact chunks_concat_complete 1 ["a", "", "b"] ⟨"ok", true, false, 0, 1⟩
    ⟨"", none⟩ ⟨some "s", "", [], [], some 0⟩ (fun _ => none) "s"
    rfl rfl (by decide) rfl

/-- C7: a live update whose text equals the last emitted live text is
suppressed entirely, and two consecutive live updates carrying the same
non-empty changed text produce exactly one incomplete transcription
event. -/
theorem live_update_dedup (now now2 : ℚ) (stream stream2 : List String)
    (r r2 : TickResult) (ws : WsState) (mgr : ConvMgr) (store : Store)
    (hp : r.pausing = false) (hc : r.phrase_complete = false)
    (hp2 : r2.pausing = false) (hc2 : r2.phrase_complete = false)
    (hsame : r2.text = r.text)
    (hne : r.text ≠ "") (hdiff : r.text ≠ ws.current_student_text) :
    (∀ (r3 : TickResult) (ws3 : WsState),
        r3.pausing = false → r3.phrase_complete = false →
        r3.text = ws3.current_student_text →
        (handle_result now stream (some r3) ws3 mgr store).events = []) ∧
    (handle_result now stream (some r) ws mgr store).events.filterMap liveText
        ++ ((handle_result now2 stream2 (some r2)
              (handle_result now stream (some r) ws mgr store).ws
              mgr store).events.filterMap liveText)
      = [r.text] := by
  constructor
  · intro r3 ws3 hp3 hc3 heq
    simp [handle_result, hp3, hc3, heq]
  · have h1 : handle_result now stream (some r) ws mgr store
        = ⟨⟨r.text, none⟩, mgr, store,
           [Event.transcription r.text false, Event.status "listening"],
           0, true, false⟩ := by
      simp [handle_result, hp, hc, hne, hdiff]
    rw [h1]
    simp [handle_result, hp2, hc2, hsame, liveText]

/-- Witness for `live_update_dedup`: two consecutive identical live
transcriptions of "hi" forward a single event. -/
theorem live_update_dedup_witness :
    (TickResult.pausing ⟨"hi", false, false, 5, 1⟩ = false) ∧
    (TickResult.phrase_complete ⟨"hi", false, false, 5, 1⟩ = false) ∧
    (TickResult.text ⟨"hi", false, false, 5, 1⟩ ≠ "") ∧
    (TickResult.text ⟨"hi", false, false, 5, 1⟩
      ≠ WsState.current_student_text ⟨"", none⟩) ∧
    (handle_result 1 [] (some ⟨"hi", false, false, 5, 1⟩) ⟨"", none⟩
        ⟨some "s", "", [], [], some 0⟩ (fun _ => none)).events.filterMap liveText
      ++ ((handle_result 2 [] (some ⟨"hi", false, false, 5, 2⟩)
            (handle_result 1 [] (some ⟨"hi", false, false, 5, 1⟩) ⟨"", none⟩
              ⟨some "s", "", [], [], some 0⟩ (fun _ => none)).ws
            ⟨some "s", "", [], [], some 0⟩ (fun _ => none)).events.filterMap
          liveText)
      = ["hi"] := by
  refine ⟨rfl, rfl, by decide, by decide, ?_⟩
  exact (live_update_dedup 1 2 [] [] ⟨"hi", false, false, 5, 1⟩
    ⟨"hi", false, false, 5, 2⟩ ⟨"", none⟩ ⟨some "s", "", [], [], some 0⟩
    (fun _ => none) rfl rfl rfl rfl rfl (by decide) (by decide)).2

/-- C10: a live segmenter result whose text is the empty string emits no
event at all — in particular no incomplete transcription — even though
the empty text may differ from the previously emitted live text. -/
theorem empty_live_not_forwarded (now : ℚ) (stream : List String)
    (r : TickResult) (ws : WsState) (mgr : ConvMgr) (store : Store)
    (hp : r.pausing = false) (hc : r.phrase_complete = false)
    (ht : r.text = "") :
    (handle_result now stream (some r) ws mgr store).events = [] := by
  simp [handle_result, hp, hc, ht]

/-- Witness for `empty_live_not_forwarded` where the previous live text
is non-empty, so the empty text does differ from it. -/
theorem empty_live_not_forwarded_witness :
    (TickResult.pausing ⟨"", false, false, 5, 1⟩ = false) ∧
    (TickResult.phrase_complete ⟨"", false, false, 5, 1⟩ = false) ∧
    (TickResult.text ⟨"", false, false, 5, 1⟩ = "") ∧
    (TickResult.text ⟨"", false, false, 5, 1⟩
      ≠ WsState.current_student_text ⟨"hello", none⟩) ∧
    (handle_result 1 [] (some ⟨"", false, false, 5, 1⟩) ⟨"hello", none⟩
        ⟨some "s", "", [], [], some 0⟩ (fun _ => none)).events = [] := by
  refine ⟨rfl, rfl, rfl, by decide, ?_⟩
  exact empty_live_not_forwarded 1 [] ⟨"", false, false, 5, 1⟩ ⟨"hello", none⟩
    ⟨some "s", "", [], [], some 0⟩ (fun _ => none) rfl rfl rfl

/-- One observable step of the HTTP response iterated by
`OllamaClient.generate_stream` (`src/modules/ollama_client.py` lines
156-190): either a received line (possibly falsy, possibly invalid
JSON, with the value of its `response` field), or a transport-level
exception raised at that point. -/
inductive StreamItem where
  | line (truthy : Bool) (valid_json : Bool) (response : String)
  | raised (msg : String)
deriving Repr, DecidableEq

/-- Embedding of `OllamaClient.generate_stream`: the whole iteration is
wrapped in `try/except`, so a raised exception yields the single
fragment `[Error: msg]` and the generator ends normally; falsy lines
and JSON decode errors are skipped, and only truthy `response` values
are yielded. -/
def generate_stream : List StreamItem → List String
  | [] => []
  | StreamItem.line truthy valid resp :: rest =>
    if truthy then
      if valid then
        if resp ≠ "" then resp :: generate_stream rest
        else generate_stream rest
      else generate_stream rest
    else generate_stream rest
  | StreamItem.raised msg :: _ => ["[Error: " ++ msg ++ "]"]

/-- C9: if the transport raises at any point — before, between or after
fragments — the stream does not abort: it yields exactly the fragments
of the lines received so far followed by exactly one `[Error: msg]`
fragment, and then ends (the items after the exception are never
consumed).  Combined with `chunks_concat_complete`, the orchestrator
then finishes the round trip normally and returns to listening. -/
theorem stream_error_inline (pre rest : List StreamItem) (msg : String)
    (h : ∀ m, StreamItem.raised m ∉ pre) :
    generate_stream (pre ++ StreamItem.raised msg :: rest)
      = generate_stream pre ++ ["[Error: " ++ msg ++ "]"] := by
  induction pre with
  | nil => simp [generate_stream]
  | cons x xs ih =>
    have hx : ∀ m, StreamItem.raised m ∉ xs := by
      intro m hm
      exact h m (List.mem_cons_of_mem x hm)
    cases x with
    | line truthy valid resp =>
      by_cases htr : truthy
      · by_cases hv : valid
        · by_cases hr : resp = ""
          · simp [generate_stream, htr, hv, hr, ih hx]
          · simp [generate_stream, htr, hv, hr, ih hx]
        · simp [generate_stream, htr, hv, ih hx]
      · simp [generate_stream, htr, ih hx]
    | raised m =>
      exact absurd (List.mem_cons_self _ _) (h m)

/-- Witness for `stream_error_inline`: two good fragments, then a
connection failure, then data that is never consumed. -/
theorem stream_error_inline_witness :
    (∀ m, StreamItem.raised m
        ∉ [StreamItem.line true true "Why", StreamItem.line true true "?"]) ∧
    generate_stream
        ([StreamItem.line true true "Why", StreamItem.line true true "?"]
          ++ StreamItem.raised "conn reset"
            :: [StreamItem.line true true "lost"])
      = generate_stream
          [StreamItem.line true true "Why", StreamItem.line true true "?"]
        ++ ["[Error: " ++ "conn reset" ++ "]"] := by
  refine ⟨by simp, ?_⟩
  exact stream_error_inline
    [StreamItem.line true true "Why", StreamItem.line true true "?"]
    [StreamItem.line true true "lost"] "conn reset" (by simp)

/-- Combined per-session state driven by the websocket loop: the
segmenter, the loop variables, the conversation manager and the session
store. -/
structure SysState where
  stt : STTState
  ws : WsState
  mgr : ConvMgr
  store : Store

/-- Input of one loop iteration: the wall-clock time at which the
iteration runs, the audio chunks drained from the shared queue at that
moment, and the LLM fragments that would be streamed if a phrase
completes. -/
structure TickIn where
  now : ℚ
  queue : List (List Nat)
  stream : List String

/-- Result of one composed loop iteration. -/
structure SysOut where
  state : SysState
  events : List Event
  slept : Bool
  errored : Bool

/-- One full iteration of the `websocket_conversation` loop body:
`process_audio_queue` followed by the branch on its result. -/
def conversation_tick (asr : List Nat → String) (phrase_timeout : ℚ)
    (t : TickIn) (s : SysState) : SysOut :=
  let pr := process_audio_queue asr phrase_timeout t.now t.queue s.stt
  let out := handle_result t.now t.stream pr.1 s.ws s.mgr s.store
  ⟨⟨pr.2, out.ws, out.mgr, out.store⟩, out.events, out.slept, out.errored⟩

/-- Run the loop over a list of iterations, tagging every emitted event
with the time of its iteration; an escaped exception ends the loop. -/
def runTicks (asr : List Nat → String) (phrase_timeout : ℚ) :
    SysState → List TickIn → SysState × List (ℚ × Event)
  | s, [] => (s, [])
  | s, t :: rest =>
    let out := conversation_tick asr phrase_timeout t s
    if out.errored then
      (out.state, out.events.map (fun e => (t.now, e)))
    else
      let r := runTicks asr phrase_timeout out.state rest
      (r.1, out.events.map (fun e => (t.now, e)) ++ r.2)

/-- Admissible timing of a run: each iteration happens no earlier than
`lo`, and after an iteration that reaches `asyncio.sleep(0.25)` the next
one happens at least `0.25` seconds later (the `continue` taken for an
empty finalized phrase skips the sleep, so it only guarantees
monotonicity). -/
def validTimes (asr : List Nat → String) (phrase_timeout : ℚ) :
    SysState → ℚ → List TickIn → Bool
  | _, _, [] => true
  | s, lo, t :: rest =>
    let out := conversation_tick asr phrase_timeout t s
    decide (lo ≤ t.now) &&
      (out.errored ||
        validTimes asr phrase_timeout out.state
          (t.now + (if out.slept then 1/4 else 0)) rest)

/-- The times at which pausing status events occur in a tagged trace. -/
def pausingTimes (tr : List (ℚ × Event)) : List ℚ :=
  tr.filterMap (fun p =>
    match p.2 with
    | Event.statusPausing _ => some p.1
    | _ => none)

/-- Consecutive elements are at least half a second apart. -/
def spacedb : List ℚ → Bool
  | a :: b :: rest => decide (a + 1/2 ≤ b) && spacedb (b :: rest)
  | _ => true

/-- `spacedb`, additionally spacing the head against the time of the
most recent earlier pausing event, when there is one. -/
def spacedFromB : Option ℚ → List ℚ → Bool
  | none, l => spacedb l
  | some p, l => spacedb (p :: l)

/-- Inductive invariant of the throttling argument, relating the loop's
`last_pausing_time`, the earliest admissible next iteration time `lo`,
and the time `lastP` of the most recent pausing event already sent:
after a pausing send the next iteration is at least `0.25` s later, and
once `last_pausing_time` has been reset, reaching another pausing
result costs a further sleep (two sleeps when the phrase buffer must
first be refilled). -/
def pausingInv (s : SysState) (lo : ℚ) (lastP : Option ℚ) : Prop :=
  (∀ t1, s.ws.last_pausing_time = some t1 → lastP = some t1) ∧
  (∀ p, lastP = some p →
      p + 1/4 ≤ lo ∧
      (s.ws.last_pausing_time = none → s.stt.phrase_bytes ≠ [] →
        p + 1/2 ≤ lo))

lemma pausingInv_mono (s s2 : SysState) (lo lo2 : ℚ) (lastP : Option ℚ)
    (hws : s2.ws.last_pausing_time = s.ws.last_pausing_time)
    (hb : s2.stt.phrase_bytes = s.stt.phrase_bytes)
    (hle : lo ≤ lo2) (h : pausingInv s lo lastP) : pausingInv s2 lo2 lastP := by
  obtain ⟨h1, h2⟩ := h
  constructor
  · intro t1 ht1
    exact h1 t1 (hws ▸ ht1)
  · intro p hp
    obtain ⟨ha, hbnd⟩ := h2 p hp
    refine ⟨by linarith, ?_⟩
    intro hn hne
    have := hbnd (hws ▸ hn) (hb ▸ hne)
    linarith

lemma pausingInv_le (s : SysState) (lo : ℚ) (lastP : Option ℚ) (p : ℚ)
    (h : pausingInv s lo lastP) (hp : lastP = some p) : p + 1/4 ≤ lo :=
  (h.2 p hp).1

lemma pausingInv_half (s : SysState) (lo : ℚ) (lastP : Option ℚ) (p : ℚ)
    (h : pausingInv s lo lastP) (hp : lastP = some p)
    (hlp : s.ws.last_pausing_time = none)
    (hb : s.stt.phrase_bytes ≠ []) : p + 1/2 ≤ lo :=
  (h.2 p hp).2 hlp hb

lemma pausingInv_some (s : SysState) (lo : ℚ) (lastP : Option ℚ) (t1 : ℚ)
    (h : pausingInv s lo lastP)
    (hlp : s.ws.last_pausing_time = some t1) :
    lastP = some t1 :=
  h.1 t1 hlp

lemma pausingInv_reset_empty (s2 : SysState) (lo2 : ℚ) (lastP : Option ℚ)
    (hlp : s2.ws.last_pausing_time = none) (hb : s2.stt.phrase_bytes = [])
    (h : ∀ p, lastP = some p → p + 1/4 ≤ lo2) : pausingInv s2 lo2 lastP := by
  constructor
  · intro t1 ht1
    rw [hlp] at ht1
    exact absurd ht1 (by simp)
  · intro p hp
    exact ⟨h p hp, fun _ hne => absurd hb hne⟩

lemma pausingInv_reset_any (s2 : SysState) (lo2 : ℚ) (lastP : Option ℚ)
    (hlp : s2.ws.last_pausing_time = none)
    (h : ∀ p, lastP = some p → p + 1/2 ≤ lo2) : pausingInv s2 lo2 lastP := by
  constructor
  · intro t1 ht1
    rw [hlp] at ht1
    exact absurd ht1 (by simp)
  · intro p hp
    exact ⟨by linarith [h p hp], fun _ _ => h p hp⟩

lemma pausingInv_sent (s2 : SysState) (lo2 τ : ℚ)
    (hlp : s2.ws.last_pausing_time = some τ) (hle : τ + 1/4 ≤ lo2) :
    pausingInv s2 lo2 (some τ) := by
  constructor
  · intro t1 ht1
    rw [hlp] at ht1
    exact ht1
  · intro p hp
    obtain rfl : τ = p := by injection hp
    exact ⟨hle, fun hn _ => absurd (hlp ▸ hn) (by simp)⟩

lemma pausingTimes_eq_nil (τ : ℚ) (l : List Event)
    (h : ∀ e ∈ l, ∀ q, e ≠ Event.statusPausing q) :
    pausingTimes (l.map (fun e => (τ, e))) = [] := by
  unfold pausingTimes
  rw [List.filterMap_map, List.filterMap_eq_nil_iff]
  intro e he
  cases e with
  | statusPausing q => exact absurd rfl (h _ he q)
  | ready => rfl
  | status a => rfl
  | transcription a b => rfl
  | botChunk a => rfl
  | botComplete a => rfl
  | errorMsg a => rfl

lemma conversation_tick_def (asr : List Nat → String) (pt : ℚ) (t : TickIn)
    (s : SysState) :
    conversation_tick asr pt t s
      = ⟨⟨(process_audio_queue asr pt t.now t.queue s.stt).2,
          (handle_result t.now t.stream
            (process_audio_queue asr pt t.now t.queue s.stt).1
            s.ws s.mgr s.store).ws,
          (handle_result t.now t.stream
            (process_audio_queue asr pt t.now t.queue s.stt).1
            s.ws s.mgr s.store).mgr,
          (handle_result t.now t.stream
            (process_audio_queue asr pt t.now t.queue s.stt).1
            s.ws s.mgr s.store).store⟩,
         (handle_result t.now t.stream
           (process_audio_queue asr pt t.now t.queue s.stt).1
           s.ws s.mgr s.store).events,
         (handle_result t.now t.stream
           (process_audio_queue asr pt t.now t.queue s.stt).1
           s.ws s.mgr s.store).slept,
         (handle_result t.now t.stream
           (process_audio_queue asr pt t.now t.queue s.stt).1
           s.ws s.mgr s.store).errored⟩ := rfl

lemma handle_result_none (now : ℚ) (stream : List String) (ws : WsState)
    (mgr : ConvMgr) (store : Store) :
    handle_result now stream none ws mgr store
      = ⟨ws, mgr, store, [], 0, true, false⟩ := rfl

lemma handle_result_pausing_send_none (now : ℚ) (stream : List String)
    (r : TickResult) (ws : WsState) (mgr : ConvMgr) (store : Store)
    (hp : r.pausing = true) (hlp : ws.last_pausing_time = none) :
    handle_result now stream (some r) ws mgr store
      = ⟨⟨ws.current_student_text, some now⟩, mgr, store,
         [Event.statusPausing r.time_remaining], 0, true, false⟩ := by
  simp [handle_result, hp, hlp]

lemma handle_result_pausing_send_due (now : ℚ) (stream : List String)
    (r : TickResult) (ws : WsState) (mgr : ConvMgr) (store : Store) (t1 : ℚ)
    (hp : r.pausing = true) (hlp : ws.last_pausing_time = some t1)
    (hd : (1:ℚ)/2 ≤ now - t1) :
    handle_result now stream (some r) ws mgr store
      = ⟨⟨ws.current_student_text, some now⟩, mgr, store,
         [Event.statusPausing r.time_remaining], 0, true, false⟩ := by
  simp [handle_result, hp, hlp, hd]
  linarith

lemma handle_result_pausing_skip (now : ℚ) (stream : List String)
    (r : TickResult) (ws : WsState) (mgr : ConvMgr) (store : Store) (t1 : ℚ)
    (hp : r.pausing = true) (hlp : ws.last_pausing_time = some t1)
    (hd : ¬ (1:ℚ)/2 ≤ now - t1) :
    handle_result now stream (some r) ws mgr store
      = ⟨ws, mgr, store, [], 0, true, false⟩ := by
  simp [handle_result, hp, hlp, hd]
  linarith [not_le.mp hd]

lemma handle_result_live_emit (now : ℚ) (stream : List String)
    (r : TickResult) (ws : WsState) (mgr : ConvMgr) (store : Store)
    (hp : r.pausing = false) (hc : r.phrase_complete = false)
    (h1 : r.text ≠ "") (h2 : r.text ≠ ws.current_student_text) :
    handle_result now stream (some r) ws mgr store
      = ⟨⟨r.text, none⟩, mgr, store,
         [Event.transcription r.text false, Event.status "listening"],
         0, true, false⟩ := by
  simp [handle_result, hp, hc, h1, h2]

lemma handle_result_live_skip (now : ℚ) (stream : List String)
    (r : TickResult) (ws : WsState) (mgr : ConvMgr) (store : Store)
    (hp : r.pausing = false) (hc : r.phrase_complete = false)
    (h12 : ¬ (r.text ≠ "" ∧ r.text ≠ ws.current_student_text)) :
    handle_result now stream (some r) ws mgr store
      = ⟨ws, mgr, store, [], 0, true, false⟩ := by
  simp only [handle_result, hp, hc, Bool.false_eq_true, if_false, if_neg h12]

lemma handle_result_complete_facts (now : ℚ) (stream : List String)
    (r : TickResult) (ws : WsState) (mgr : ConvMgr) (store : Store)
    (hp : r.pausing = false) (hc : r.phrase_complete = true) :
    (∀ e ∈ (handle_result now stream (some r) ws mgr store).events,
        ∀ q, e ≠ Event.statusPausing q) ∧
    ((handle_result now stream (some r) ws mgr store).errored = true
      ∨ (handle_result now stream (some r) ws mgr store).ws.last_pausing_time
          = none) := by
  by_cases hst : pyStrip r.text = ""
  · have hout : handle_result now stream (some r) ws mgr store
        = ⟨⟨"", none⟩, mgr, store, [Event.status "listening"], 0, false, false⟩ := by
      simp [handle_result, hp, hc, hst]
    rw [hout]
    refine ⟨?_, Or.inr rfl⟩
    intro e he q
    simp only [List.mem_singleton] at he
    subst he
    simp
  · rcases h1 : add_message now "student" r.text none none none mgr store
      with ⟨mgr1, store1, ok1⟩
    cases ok1 with
    | false =>
      have hout : handle_result now stream (some r) ws mgr store
          = ⟨ws, mgr1, store1, [Event.transcription r.text true],
             0, false, true⟩ := by
        simp [handle_result, hp, hc, hst, h1]
      rw [hout]
      refine ⟨?_, Or.inl rfl⟩
      intro e he q
      simp only [List.mem_singleton] at he
      subst he
      simp
    | true =>
      rcases h2 : add_message now "bot"
          (String.join (stream.filter (fun c => c ≠ "")))
          none none none mgr1 store1
        with ⟨mgr2, store2, ok2⟩
      simp only [ne_eq, decide_not] at h2
      have hnp : ∀ e ∈ [Event.transcription r.text true]
            ++ [Event.status "analyzing", Event.status "responding"]
            ++ (stream.filter (fun c => c ≠ "")).map Event.botChunk
            ++ [Event.botComplete
                  (String.join (stream.filter (fun c => c ≠ "")))],
          ∀ q, e ≠ Event.statusPausing q := by
        intro e he q
        simp only [List.mem_append, List.mem_singleton, List.mem_cons,
          List.not_mem_nil, or_false, List.mem_map] at he
        rcases he with ((rfl | (rfl | rfl)) | ⟨c, _, rfl⟩) | rfl <;> simp
      cases ok2 with
      | false =>
        have hout : handle_result now stream (some r) ws mgr store
            = ⟨ws, mgr2, store2,
               [Event.transcription r.text true]
                ++ [Event.status "analyzing", Event.status "responding"]
                ++ (stream.filter (fun c => c ≠ "")).map Event.botChunk
                ++ [Event.botComplete
                      (String.join (stream.filter (fun c => c ≠ "")))],
               1, false, true⟩ := by
          simp [handle_result, hp, hc, hst, h1, h2]
        rw [hout]
        exact ⟨hnp, Or.inl rfl⟩
      | true =>
        have hout : handle_result now stream (some r) ws mgr store
            = ⟨⟨"", none⟩, mgr2, store2,
               ([Event.transcription r.text true]
                ++ [Event.status "analyzing", Event.status "responding"]
                ++ (stream.filter (fun c => c ≠ "")).map Event.botChunk
                ++ [Event.botComplete
                      (String.join (stream.filter (fun c => c ≠ "")))])
                ++ [Event.status "listening"],
               1, true, false⟩ := by
          simp [handle_result, hp, hc, hst, h1, h2]
        rw [hout]
        refine ⟨?_, Or.inr rfl⟩
        intro e he q
        rw [List.mem_append] at he
        rcases he with he | he
        · exact hnp e he q
        · simp only [List.mem_singleton] at he
          subst he
          simp

lemma step_pausing (asr : List Nat → String) (pt : ℚ) (t : TickIn)
    (s : SysState) (lo : ℚ) (lastP : Option ℚ)
    (hinv : pausingInv s lo lastP) (hlo : lo ≤ t.now) :
    ((conversation_tick asr pt t s).errored = true ∧
      pausingTimes ((conversation_tick asr pt t s).events.map
        (fun e => (t.now, e))) = [])
    ∨ (pausingTimes ((conversation_tick asr pt t s).events.map
          (fun e => (t.now, e))) = []
        ∧ pausingInv (conversation_tick asr pt t s).state
            (t.now + if (conversation_tick asr pt t s).slept then (1:ℚ)/4 else 0)
            lastP)
    ∨ (pausingTimes ((conversation_tick asr pt t s).events.map
          (fun e => (t.now, e))) = [t.now]
        ∧ (∀ p, lastP = some p → p + 1/2 ≤ t.now)
        ∧ pausingInv (conversation_tick asr pt t s).state
            (t.now + if (conversation_tick asr pt t s).slept then (1:ℚ)/4 else 0)
            (some t.now)) := by
  have hq4 : ∀ p : ℚ, lastP = some p → p + 1/4 ≤ t.now := by
    intro p hp
    have := pausingInv_le s lo lastP p hinv hp
    linarith
  by_cases hq : t.queue = []
  · cases hpt : s.stt.phrase_time with
    | none =>
      -- idle: None result, everything unchanged
      have hpr : process_audio_queue asr pt t.now t.queue s.stt
          = (none, s.stt) := by
        simp [process_audio_queue, hq, hpt]
      rw [conversation_tick_def, hpr, handle_result_none]
      refine Or.inr (Or.inl ⟨by simp [pausingTimes], ?_⟩)
      refine pausingInv_mono s _ lo _ lastP rfl rfl ?_ hinv
      show lo ≤ t.now + (1:ℚ)/4
      linarith
    | some t0 =>
      by_cases hb : s.stt.phrase_bytes = []
      · -- stale timestamp with empty buffer: None result
        have hpr : process_audio_queue asr pt t.now t.queue s.stt
            = (none, s.stt) := by
          simp [process_audio_queue, hq, hpt, hb]
        rw [conversation_tick_def, hpr, handle_result_none]
        refine Or.inr (Or.inl ⟨by simp [pausingTimes], ?_⟩)
        refine pausingInv_mono s _ lo _ lastP rfl rfl ?_ hinv
        show lo ≤ t.now + (1:ℚ)/4
        linarith
      · by_cases he : pt ≤ t.now - t0
        · -- countdown expired: phrase-complete result
          have hpr : process_audio_queue asr pt t.now t.queue s.stt
              = (some ⟨pyStrip (asr s.stt.phrase_bytes), true, false, 0, t.now⟩,
                 ⟨[], none⟩) := by
            simp [process_audio_queue, hq, hpt, hb, he]
          rw [conversation_tick_def, hpr]
          obtain ⟨hnp, herr⟩ := handle_result_complete_facts t.now t.stream
            ⟨pyStrip (asr s.stt.phrase_bytes), true, false, 0, t.now⟩
            s.ws s.mgr s.store rfl rfl
          rcases herr with herr | hlpt
          · exact Or.inl ⟨herr, pausingTimes_eq_nil _ _ hnp⟩
          · refine Or.inr (Or.inl ⟨pausingTimes_eq_nil _ _ hnp, ?_⟩)
            refine pausingInv_reset_empty _ _ lastP hlpt rfl ?_
            intro p hp
            have h4 := hq4 p hp
            have hz : (0:ℚ)
                ≤ if (handle_result t.now t.stream
                      (some ⟨pyStrip (asr s.stt.phrase_bytes), true, false,
                        0, t.now⟩) s.ws s.mgr s.store).slept
                  then (1:ℚ)/4 else 0 := by
              split <;> norm_num
            linarith
        · -- still counting down: pausing result
          have hpr : process_audio_queue asr pt t.now t.queue s.stt
              = (some ⟨"", false, true, max 0 (pt - (t.now - t0)), t.now⟩,
                 s.stt) := by
            simp [process_audio_queue, hq, hpt, hb, he]
          rw [conversation_tick_def, hpr]
          cases hlp : s.ws.last_pausing_time with
          | none =>
            rw [handle_result_pausing_send_none t.now t.stream _ s.ws s.mgr
              s.store rfl hlp]
            refine Or.inr (Or.inr ⟨by simp [pausingTimes], ?_, ?_⟩)
            · intro p hp
              have := pausingInv_half s lo lastP p hinv hp hlp hb
              linarith
            · exact pausingInv_sent _ _ t.now rfl (le_refl _)
          | some t1 =>
            have hlastP : lastP = some t1 :=
              pausingInv_some s lo lastP t1 hinv hlp
            by_cases hd : (1:ℚ)/2 ≤ t.now - t1
            · rw [handle_result_pausing_send_due t.now t.stream _ s.ws s.mgr
                s.store t1 rfl hlp hd]
              refine Or.inr (Or.inr ⟨by simp [pausingTimes], ?_, ?_⟩)
              · intro p hp
                rw [hlastP] at hp
                obtain rfl : t1 = p := by injection hp
                linarith
              · exact pausingInv_sent _ _ t.now rfl (le_refl _)
            · rw [handle_result_pausing_skip t.now t.stream _ s.ws s.mgr
                s.store t1 rfl hlp hd]
              refine Or.inr (Or.inl ⟨by simp [pausingTimes], ?_⟩)
              refine pausingInv_mono s _ lo _ lastP rfl rfl ?_ hinv
              show lo ≤ t.now + (1:ℚ)/4
              linarith
  · -- new audio: live result
    have hpr : process_audio_queue asr pt t.now t.queue s.stt
        = (some ⟨pyStrip (asr (s.stt.phrase_bytes ++ t.queue.flatten)),
                false, false, pt, t.now⟩,
           ⟨s.stt.phrase_bytes ++ t.queue.flatten, some t.now⟩) := by
      simp [process_audio_queue, hq]
    rw [conversation_tick_def, hpr]
    by_cases hcond : pyStrip (asr (s.stt.phrase_bytes ++ t.queue.flatten)) ≠ ""
        ∧ pyStrip (asr (s.stt.phrase_bytes ++ t.queue.flatten))
            ≠ s.ws.current_student_text
    · rw [handle_result_live_emit t.now t.stream _ s.ws s.mgr s.store
        rfl rfl hcond.1 hcond.2]
      refine Or.inr (Or.inl ⟨by simp [pausingTimes], ?_⟩)
      refine pausingInv_reset_any _ _ lastP rfl ?_
      intro p hp
      have := hq4 p hp
      show p + 1/2 ≤ t.now + (1:ℚ)/4
      linarith
    · rw [handle_result_live_skip t.now t.stream _ s.ws s.mgr s.store
        rfl rfl hcond]
      refine Or.inr (Or.inl ⟨by simp [pausingTimes], ?_⟩)
      constructor
      · intro t1 ht1
        exact hinv.1 t1 ht1
      · intro p hp
        have h4 := pausingInv_le s lo lastP p hinv hp
        refine ⟨by
          show p + 1/4 ≤ t.now + (1:ℚ)/4
          linarith, ?_⟩
        intro hn _
        have h4' := hq4 p hp
        show p + 1/2 ≤ t.now + (1:ℚ)/4
        linarith

lemma pausingTimes_append (a b : List (ℚ × Event)) :
    pausingTimes (a ++ b) = pausingTimes a ++ pausingTimes b := by
  simp [pausingTimes, List.filterMap_append]

lemma runTicks_spaced (asr : List Nat → String) (pt : ℚ) :
    ∀ (ticks : List TickIn) (s : SysState) (lo : ℚ) (lastP : Option ℚ),
      pausingInv s lo lastP →
      validTimes asr pt s lo ticks = true →
      spacedFromB lastP (pausingTimes (runTicks asr pt s ticks).2) = true := by
  intro ticks
  induction ticks with
  | nil =>
    intro s lo lastP hinv hv
    cases lastP <;> simp [runTicks, pausingTimes, spacedFromB, spacedb]
  | cons t rest ih =>
    intro s lo lastP hinv hv
    simp only [validTimes, Bool.and_eq_true, decide_eq_true_eq,
      Bool.or_eq_true] at hv
    obtain ⟨hlo, hrest⟩ := hv
    have step := step_pausing asr pt t s lo lastP hinv hlo
    by_cases herr : (conversation_tick asr pt t s).errored = true
    · have hrun : (runTicks asr pt s (t :: rest)).2
          = (conversation_tick asr pt t s).events.map (fun e => (t.now, e)) := by
        simp [runTicks, herr]
      rw [hrun]
      rcases step with ⟨_, hnp⟩ | ⟨hnp, _⟩ | ⟨hone, hgap, _⟩
      · rw [hnp]; cases lastP <;> simp [spacedFromB, spacedb]
      · rw [hnp]; cases lastP <;> simp [spacedFromB, spacedb]
      · rw [hone]
        cases lastP with
        | none => simp [spacedFromB, spacedb]
        | some p =>
          simp only [spacedFromB, spacedb, Bool.and_eq_true,
            decide_eq_true_eq]
          exact ⟨hgap p rfl, trivial⟩
    · have hverr : validTimes asr pt (conversation_tick asr pt t s).state
          (t.now + if (conversation_tick asr pt t s).slept then (1:ℚ)/4 else 0)
          rest = true := by
        rcases hrest with h | h
        · exact absurd h herr
        · exact h
      have hrun : (runTicks asr pt s (t :: rest)).2
          = (conversation_tick asr pt t s).events.map (fun e => (t.now, e))
            ++ (runTicks asr pt (conversation_tick asr pt t s).state rest).2 := by
        simp [runTicks, herr]
      rw [hrun, pausingTimes_append]
      rcases step with ⟨h, _⟩ | ⟨hnp, hinv2⟩ | ⟨hone, hgap, hinv2⟩
      · exact absurd h herr
      · rw [hnp, List.nil_append]
        exact ih _ _ lastP hinv2 hverr
      · rw [hone]
        have ihr := ih _ _ (some t.now) hinv2 hverr
        cases lastP with
        | none => exact ihr
        | some p =>
          show spacedb (p :: t.now
            :: pausingTimes (runTicks asr pt
                (conversation_tick asr pt t s).state rest).2) = true
          rw [spacedb, Bool.and_eq_true]
          exact ⟨decide_eq_true (hgap p rfl), ihr⟩

/-- C6: in every admissibly-timed execution of the websocket loop
started from the connection's initial loop state (whatever the manager
and store hold), any two consecutive pausing status events in the
emitted trace are at least half a second of wall-clock time apart, no
matter which other events are emitted between them. -/
theorem pausing_throttled (asr : List Nat → String) (phrase_timeout : ℚ)
    (mgr : ConvMgr) (store : Store) (ticks : List TickIn)
    (hv : validTimes asr phrase_timeout ⟨sttInit, ⟨"", none⟩, mgr, store⟩
        0 ticks = true) :
    spacedb (pausingTimes
      (runTicks asr phrase_timeout ⟨sttInit, ⟨"", none⟩, mgr, store⟩
        ticks).2) = true := by
  have hinv0 : pausingInv ⟨sttInit, ⟨"", none⟩, mgr, store⟩ 0 none := by
    refine ⟨?_, ?_⟩
    · intro t1 ht1
      exact ht1
    · intro p hp
      exact absurd hp (by simp)
  exact runTicks_spaced asr phrase_timeout ticks _ 0 none hinv0 hv

/-- Witness for `pausing_throttled`: an audio tick at `t = 0` followed
by a silent tick at `t = 0.25`, which emits one pausing event. -/
theorem pausing_throttled_witness :
    validTimes (fun _ => "a") 5
        ⟨sttInit, ⟨"", none⟩, ⟨some "s", "", [], [], some 0⟩, fun _ => none⟩
        0 [⟨0, [[1]], []⟩, ⟨1/4, [], []⟩] = true ∧
    spacedb (pausingTimes
      (runTicks (fun _ => "a") 5
        ⟨sttInit, ⟨"", none⟩, ⟨some "s", "", [], [], some 0⟩, fun _ => none⟩
        [⟨0, [[1]], []⟩, ⟨1/4, [], []⟩]).2) = true := by
  have hstrip : pyStrip "a" = "a" := by decide
  have e1 : conversation_tick (fun _ => "a") 5 ⟨0, [[1]], []⟩
      ⟨sttInit, ⟨"", none⟩, ⟨some "s", "", [], [], some 0⟩, fun _ => none⟩
      = ⟨⟨⟨[1], some 0⟩, ⟨"a", none⟩, ⟨some "s", "", [], [], some 0⟩,
          fun _ => none⟩,
         [Event.transcription "a" false, Event.status "listening"],
         true, false⟩ := by
    simp [conversation_tick, process_audio_queue, handle_result, sttInit,
      hstrip]
  have hlt : ¬ ((5:ℚ) ≤ 4⁻¹) := by norm_num
  have e2 : conversation_tick (fun _ => "a") 5 ⟨1/4, [], []⟩
      ⟨⟨[1], some 0⟩, ⟨"a", none⟩, ⟨some "s", "", [], [], some 0⟩,
        fun _ => none⟩
      = ⟨⟨⟨[1], some 0⟩, ⟨"a", some (1/4)⟩, ⟨some "s", "", [], [], some 0⟩,
          fun _ => none⟩,
         [Event.statusPausing (max 0 (5 - (1/4 - 0)))], true, false⟩ := by
    simp [conversation_tick, process_audio_queue, handle_result, hlt]
  have hv : validTimes (fun _ => "a") 5
      ⟨sttInit, ⟨"", none⟩, ⟨some "s", "", [], [], some 0⟩, fun _ => none⟩
      0 [⟨0, [[1]], []⟩, ⟨1/4, [], []⟩] = true := by
    simp only [validTimes, e1, e2]
    norm_num
  exact ⟨hv, pausing_throttled (fun _ => "a") 5
    ⟨some "s", "", [], [], some 0⟩ (fun _ => none)
    [⟨0, [[1]], []⟩, ⟨1/4, [], []⟩] hv⟩

end WrtVoice
